import Mathlib

/-!
Shallow embedding of `main.go` from the `sum-google-calendar-event` repository,
a CLI that obtains an OAuth2 token (load → expiry check → silent refresh →
interactive re-auth fallback), fetches calendar events in a date window and
sums the durations of events matching a target name.

Conventions of the embedding:
* Calendar dates at local midnight in the fixed reference zone (JST, UTC+9,
  no daylight saving) are identified with day numbers (`GoDate.toDays`),
  mirroring Go's `time.Date` day-count computation
  (365·(y−1) + leap-day corrections + cumulative month table + day−1).
* Event instants are integers of nanoseconds, as in Go's `time.Duration`.
* Side effects (prints, file writes, the HTTP exchange) are recorded as an
  explicit list of `Act`ions; fallible external calls (file read, JSON
  decode, token refresh, event listing) are environment fields of type
  `Except`.
-/

/-! ### Case folding (`strings.EqualFold`)

`strings.EqualFold` compares strings under Unicode simple case folding; on
the ASCII fragment this is exactly letter-by-letter lower-casing of `A`-`Z`.
The embedding models that fragment. -/

def charFold (c : Char) : Char :=
  if 'A' ≤ c ∧ c ≤ 'Z' then Char.ofNat (c.toNat + 32) else c

/-- Model of `strings.EqualFold s t`: equal length and pointwise equality of folded
characters. -/
def equalFold (s t : String) : Bool :=
  s.data.map charFold == t.data.map charFold

/-! ### Decimal digit parsing helpers (used to model `time.Parse` layouts) -/

def digitVal (c : Char) : Option Nat :=
  if '0' ≤ c ∧ c ≤ '9' then some (c.toNat - 48) else none

def num2 (a b : Char) : Option Nat := do
  let x ← digitVal a
  let y ← digitVal b
  pure (10 * x + y)

def num4 (a b c d : Char) : Option Nat := do
  let x ← num2 a b
  let y ← num2 c d
  pure (100 * x + y)

/-! ### Calendar arithmetic (Go `time` package fragment)

Go's `time.Date(y, m, d, …)` normalizes out-of-range month and day values
while keeping the denoted instant: months are normalized arithmetically
(floor division by 12) and the day is a pure offset from the first of the
normalized month.  `GoDate` keeps the arguments as passed to `time.Date`;
`GoDate.toDays` is the denoted instant, in days.  Lean's `/` and `%` on
`Int` are floor-like Euclidean operations, matching Go's normalization
(all divisors below are positive). -/

def isLeap (y : Int) : Bool := y % 4 == 0 && (y % 100 != 0 || y % 400 == 0)

def daysInMonth (y m : Int) : Int :=
  if m = 2 then (if isLeap y then 29 else 28)
  else if m = 4 ∨ m = 6 ∨ m = 9 ∨ m = 11 then 30
  else 31

/-- Cumulative days before month `m` in a non-leap year (`m` in `1..12`). -/
def monthDaysAcc (m : Int) : Int :=
  if m ≤ 1 then 0
  else if m = 2 then 31
  else if m = 3 then 59
  else if m = 4 then 90
  else if m = 5 then 120
  else if m = 6 then 151
  else if m = 7 then 181
  else if m = 8 then 212
  else if m = 9 then 243
  else if m = 10 then 273
  else if m = 11 then 304
  else 334

/-- Days contributed by whole years before year `y` (Gregorian leap rule),
as in Go's `daysSinceEpoch` (the constant epoch offset is irrelevant:
only differences of day numbers are ever used). -/
def daysBeforeYear (y : Int) : Int :=
  365 * (y - 1) + (y - 1) / 4 - (y - 1) / 100 + (y - 1) / 400

/-- A calendar date as passed to Go's `time.Date(year, month, day, 0,0,0,0, jst)`.
The components may be out of their usual ranges; the denoted instant is
`toDays`. -/
structure GoDate where
  year : Int
  month : Int
  day : Int
deriving DecidableEq, Repr

/-- The instant denoted by `time.Date(year, month, day, 0,0,0,0, jst)`, as a
day number: month is normalized by floor division, the day is a linear
offset.  This is Go's absolute-time computation restricted to midnight. -/
def GoDate.toDays (t : GoDate) : Int :=
  daysBeforeYear (t.year + (t.month - 1) / 12) +
    monthDaysAcc ((t.month - 1) % 12 + 1) +
    (if 2 < (t.month - 1) % 12 + 1 ∧ isLeap (t.year + (t.month - 1) / 12)
      then 1 else 0) +
    (t.day - 1)

/-- Go's `t.AddDate(years, months, days)` is
`Date(y+years, m+months, d+days, …)` for `(y, m, d) = t.Date()`.  Every
`GoDate` this program feeds to `AddDate` stores a day-canonical triple
(it comes from `time.Parse`, or differs from one only in the day
component), so adding to the stored components denotes the same instant as
Go's re-normalized addition: month offsets commute with the arithmetic
month normalization inside `toDays`, and day offsets are linear in the
instant (see `toDays_month_add` and `toDays_day_add` below). -/
def GoDate.addDate (t : GoDate) (years months days : Int) : GoDate :=
  ⟨t.year + years, t.month + months, t.day + days⟩

/-! ### `time.Parse` layouts used by the program -/

/-- Model of `time.ParseInLocation("2006-01", s, jst)`: exactly four year digits, a
dash, two month digits, month range-checked. Returns the (year, month)
pair; the parsed time is the first of that month at local midnight. -/
def parseMonthStr (s : String) : Option (Int × Int) :=
  match s.data with
  | [y1, y2, y3, y4, '-', m1, m2] =>
    match num4 y1 y2 y3 y4, num2 m1 m2 with
    | some y, some m =>
      if 1 ≤ m ∧ m ≤ 12 then some ((y : Int), (m : Int)) else none
    | _, _ => none
  | _ => none

/-- Model of `time.ParseInLocation("2006-01-02", s, jst)`: year, month and day
digits, with month and day range checks (Go validates the day against the
month length, including leap years). -/
def parseDateStr (s : String) : Option GoDate :=
  match s.data with
  | [y1, y2, y3, y4, '-', m1, m2, '-', d1, d2] =>
    match num4 y1 y2 y3 y4, num2 m1 m2, num2 d1 d2 with
    | some y, some m, some d =>
      if 1 ≤ m ∧ m ≤ 12 ∧ 1 ≤ (d : Int) ∧ (d : Int) ≤ daysInMonth y m then
        some ⟨y, m, d⟩
      else none
    | _, _, _ => none
  | _ => none

/-- Numeric timezone offset of an RFC 3339 timestamp: `Z` or `±hh:mm`,
in seconds. -/
def parseOffset (cs : List Char) : Option Int :=
  match cs with
  | ['Z'] => some 0
  | [sign, h1, h2, ':', m1, m2] =>
    match num2 h1 h2, num2 m1 m2 with
    | some h, some m =>
      if h ≤ 23 ∧ m ≤ 59 then
        if sign = '+' then some ((h : Int) * 3600 + (m : Int) * 60)
        else if sign = '-' then some (-((h : Int) * 3600 + (m : Int) * 60))
        else none
      else none
    | _, _ => none
  | _ => none

/-- Model of `time.Parse(time.RFC3339, s)` (fragment without fractional seconds):
`YYYY-MM-DDThh:mm:ss` followed by `Z` or `±hh:mm`, all components
range-checked.  The result is the denoted instant in nanoseconds. -/
def parseRFC3339 (s : String) : Option Int :=
  match s.data with
  | y1 :: y2 :: y3 :: y4 :: '-' :: mo1 :: mo2 :: '-' :: d1 :: d2 :: 'T' ::
      h1 :: h2 :: ':' :: mi1 :: mi2 :: ':' :: s1 :: s2 :: rest =>
    match num4 y1 y2 y3 y4, num2 mo1 mo2, num2 d1 d2, num2 h1 h2,
        num2 mi1 mi2, num2 s1 s2, parseOffset rest with
    | some y, some mo, some d, some h, some mi, some se, some off =>
      if 1 ≤ mo ∧ mo ≤ 12 ∧ 1 ≤ (d : Int) ∧ (d : Int) ≤ daysInMonth y mo ∧
          h ≤ 23 ∧ mi ≤ 59 ∧ se ≤ 59 then
        some ((GoDate.toDays ⟨y, mo, d⟩ * 86400 +
          (h : Int) * 3600 + (mi : Int) * 60 + (se : Int) - off) * 1000000000)
      else none
    | _, _, _, _, _, _, _ => none
  | _ => none

/-! ### `getMonthDates` (main.go lines 155-169) -/

/-- Model of `getMonthDates(monthStr, jst)`: parse `YYYY-MM`; the start date is the
parsed time (first of the month), the end date is
`t.AddDate(0, 1, 0).AddDate(0, 0, -1)` (last day of the month).  `none`
models the returned parse error. -/
def getMonthDates (monthStr : String) : Option (GoDate × GoDate) :=
  match parseMonthStr monthStr with
  | none => none
  | some (y, m) =>
    let t : GoDate := ⟨y, m, 1⟩
    let startDate := t
    let endDate := (t.addDate 0 1 0).addDate 0 0 (-1)
    some (startDate, endDate)

/-! ### Event aggregation (main.go lines 269-297) -/

/-- A calendar event as consumed by the aggregation loop: display name
(`Summary`) and the `Start.DateTime` / `End.DateTime` strings.  An all-day
event has an empty `Start.DateTime`. -/
structure CalEvent where
  summary : String
  startDT : String
  endDT : String
deriving DecidableEq, Repr

/-- The loop state: `totalDuration` (nanoseconds), the `matchedEvents`
list in input order, and the number of `log.Printf` warnings issued for
unparsable instants. -/
structure AggState where
  totalDuration : Int
  matched : List CalEvent
  warnings : Nat
deriving DecidableEq, Repr

/-- One iteration of the aggregation loop: skip all-day events
(`item.Start.DateTime == ""`); compare names with `strings.EqualFold`;
parse the start then the end instant, warning and skipping the event if
either fails; otherwise add `end − start` to the total and append the
event. -/
def aggStep (parseT : String → Option Int) (eventName : String)
    (st : AggState) (item : CalEvent) : AggState :=
  if item.startDT = "" then st
  else if equalFold item.summary eventName then
    match parseT item.startDT with
    | none => { st with warnings := st.warnings + 1 }
    | some startTime =>
      match parseT item.endDT with
      | none => { st with warnings := st.warnings + 1 }
      | some endTime =>
        { totalDuration := st.totalDuration + (endTime - startTime),
          matched := st.matched ++ [item],
          warnings := st.warnings }
  else st

/-- The whole aggregation loop over `events.Items`, starting from zero
total, empty matched list and no warnings. -/
def aggregate (parseT : String → Option Int) (eventName : String)
    (items : List CalEvent) : AggState :=
  items.foldl (aggStep parseT eventName) ⟨0, [], 0⟩

/-- An event is kept by the loop exactly when it is not all-day, its name
matches under `EqualFold`, and both instants parse. -/
def keepEvent (parseT : String → Option Int) (eventName : String)
    (e : CalEvent) : Bool :=
  !(e.startDT = "") && equalFold e.summary eventName &&
    (parseT e.startDT).isSome && (parseT e.endDT).isSome

/-- The signed duration `end − start` of an event whose instants parse
(`0` otherwise; only used under `keepEvent`). -/
def evDuration (parseT : String → Option Int) (e : CalEvent) : Int :=
  match parseT e.startDT, parseT e.endDT with
  | some s, some t => t - s
  | _, _ => 0

/-- An event provokes a warning exactly when it is not all-day, its name
matches, and one of its instants fails to parse. -/
def warnEvent (parseT : String → Option Int) (eventName : String)
    (e : CalEvent) : Bool :=
  !(e.startDT = "") && equalFold e.summary eventName &&
    (!(parseT e.startDT).isSome || !(parseT e.endDT).isSome)

/-! ### Result display (main.go lines 300, 317-323)

`int(d.Hours())` and `int(d.Minutes())%60` for a `time.Duration` `d` of
`n` nanoseconds: Go converts the float64 quotient to `int` by truncation
toward zero, and `%` is Go's truncated remainder.  The embedding computes
the quotients exactly (`Int.tdiv`/`Int.tmod` truncate toward zero like
Go's conversion and `%`). -/
def displayHM (totalDuration : Int) : Int × Int :=
  (Int.tdiv totalDuration 3600000000000,
   Int.tmod (Int.tdiv totalDuration 60000000000) 60)

/-! ### OAuth2 token lifecycle (main.go lines 37-139) -/

/-- The fields of `oauth2.Token` the program consults. -/
structure Token where
  accessToken : String
  refreshToken : String
  expiry : Int
deriving DecidableEq, Repr

/-- Observable side effects of a run, in program order. -/
inductive Act where
  | loadTokenFile
  | logExpired
  | refreshAttempt
  | logRefreshOk
  | logRefreshFail
  | logNoRefresh
  | authFlow
  | saveToken (t : Token)
  | readCredentials
  | parseConfig
  | newService
  | listCalendars
  | loadLocation
  | usageMessage
  | fetchEvents (timeMin timeMax : Int)
deriving DecidableEq, Repr

/-- The environment `getClient` runs in: the result of
`tokenFromFile` (`os.Open` + JSON decode, collapsed into one `Except`),
the provider's refresh endpoint (`config.TokenSource(ctx, tok).Token()`),
the token produced by a completed interactive `getTokenFromWeb` flow, and
the current time (`time.Now()`, as a Unix instant). -/
structure AuthEnv where
  load : Except String Token
  refresh : Token → Except String Token
  web : Token
  now : Int

/-- Model of `getClient(config, tokenFilePath)` (main.go lines 98-128): load the
stored token; on failure run the web flow and save.  On success, if the
token's expiry is before now, print a notice and either attempt a silent
refresh when a refresh token is present (saving the refreshed token on
success, or logging the failure and falling back to the web flow and
saving its result) or, without a refresh token, log and run the web flow
and save.  Returns the token the client is built from plus the action
trace. -/
def getClient (env : AuthEnv) : Token × List Act :=
  match env.load with
  | .error _ =>
    let tok := env.web
    (tok, [.loadTokenFile, .authFlow, .saveToken tok])
  | .ok tok =>
    if tok.expiry < env.now then
      if tok.refreshToken ≠ "" then
        match env.refresh tok with
        | .ok newToken =>
          (newToken,
           [.loadTokenFile, .logExpired, .refreshAttempt, .logRefreshOk,
            .saveToken newToken])
        | .error _ =>
          let t := env.web
          (t, [.loadTokenFile, .logExpired, .refreshAttempt, .logRefreshFail,
               .authFlow, .saveToken t])
      else
        let t := env.web
        (t, [.loadTokenFile, .logExpired, .logNoRefresh, .authFlow,
             .saveToken t])
    else (tok, [.loadTokenFile])

/-! ### The redirect handler inside `getTokenFromWeb` (main.go lines 44-52) -/

/-- What one call of the redirect handler produces: the response body
written to the browser and the values sent on the one-shot `codeCh`
channel.  (When a code is present the channel send happens before the
body write; the flow's consumer unblocks exactly when `channelSends` is
non-empty.) -/
structure HandlerResponse where
  body : String
  channelSends : List String
deriving DecidableEq, Repr

/-- The handler registered on `/`: read the `code` query parameter; if it
is non-empty send it on the channel and answer with the completion
message, otherwise answer with the no-code message and send nothing. -/
def redirectHandler (code : String) : HandlerResponse :=
  if code ≠ "" then
    { body := "認証が完了しました。このページを閉じて構いません。",
      channelSends := [code] }
  else
    { body := "認証コードが取得できませんでした。", channelSends := [] }

/-! ### `main` (main.go lines 171-325) -/

/-- The command-line flags. -/
structure Flags where
  startStr : String
  endStr : String
  monthStr : String
  eventName : String
  calendarID : String
  isList : Bool
deriving DecidableEq, Repr

/-- Outcome of the date-range selection block (main.go lines 228-250):
either a start/end date pair, the usage message plus `os.Exit(1)`, or a
fatal parse error. -/
inductive DateSel where
  | window (startDate endDate : GoDate)
  | usage
  | parseFail
deriving DecidableEq, Repr

/-- The date-range selection: a non-empty `-month` flag takes priority and
is parsed with `getMonthDates` (fatal on parse error); otherwise both
`-start` and `-end` must be non-empty and are parsed as `YYYY-MM-DD`
(fatal on parse error); otherwise usage + exit 1. -/
def selectDates (f : Flags) : DateSel :=
  if f.monthStr ≠ "" then
    match getMonthDates f.monthStr with
    | some (s, e) => .window s e
    | none => .parseFail
  else if f.startStr ≠ "" ∧ f.endStr ≠ "" then
    match parseDateStr f.startStr, parseDateStr f.endStr with
    | some s, some e => .window s e
    | _, _ => .parseFail
  else .usage

/-- The query window handed to `Events.List`: `TimeMin` is the start date
and `TimeMax` is `searchEndDate := endDate.AddDate(0, 0, 1)` (main.go
lines 252-253, 259-261), both as day numbers. -/
def searchWindow (startDate endDate : GoDate) : Int × Int :=
  (startDate.toDays, (endDate.addDate 0 0 1).toDays)

/-- External collaborators of `main`: credentials file read,
`google.ConfigFromJSON`, the auth environment, `calendar.NewService`,
`time.LoadLocation("Asia/Tokyo")`, and `Events.List` (keyed by calendar
id and the query window day numbers). -/
structure MainEnv where
  readCreds : Except String Unit
  configOfJSON : Except String Unit
  auth : AuthEnv
  newService : Except String Unit
  location : Except String Unit
  listEvents : String → Int → Int → Except String (List CalEvent)

/-- How a run of `main` ends: a `log.Fatalf` naming the failed step, the
usage message with `os.Exit(1)`, the `-list` path, or a normal report of
the aggregation result. -/
inductive Outcome where
  | fatalError (step : String)
  | usageExit
  | listed
  | report (result : AggState)
deriving DecidableEq, Repr

/-- Model of `main`: read credentials (fatal on error), build the OAuth config
(fatal on error), obtain the client via `getClient`, build the calendar
service (fatal on error); on `-list`, list calendars and return; exit 1
with usage if the event name is missing; load the timezone (fatal on
error); select the date range; fetch events over the search window (fatal
on error); aggregate with `time.Parse(time.RFC3339, …)` and report. -/
def runMain (env : MainEnv) (f : Flags) : Outcome × List Act :=
  match env.readCreds with
  | .error _ => (.fatalError "credentials", [.readCredentials])
  | .ok _ =>
    match env.configOfJSON with
    | .error _ => (.fatalError "config", [.readCredentials, .parseConfig])
    | .ok _ =>
      let clientResult := getClient env.auth
      let pre := [Act.readCredentials, Act.parseConfig] ++ clientResult.2
      match env.newService with
      | .error _ => (.fatalError "service", pre ++ [.newService])
      | .ok _ =>
        if f.isList then (.listed, pre ++ [.newService, .listCalendars])
        else if f.eventName = "" then
          (.usageExit, pre ++ [.newService, .usageMessage])
        else
          match env.location with
          | .error _ => (.fatalError "location", pre ++ [.newService, .loadLocation])
          | .ok _ =>
            match selectDates f with
            | .parseFail =>
              (.fatalError "dates", pre ++ [.newService, .loadLocation])
            | .usage =>
              (.usageExit, pre ++ [.newService, .loadLocation, .usageMessage])
            | .window startDate endDate =>
              let w := searchWindow startDate endDate
              match env.listEvents f.calendarID w.1 w.2 with
              | .error _ =>
                (.fatalError "events",
                 pre ++ [.newService, .loadLocation, .fetchEvents w.1 w.2])
              | .ok items =>
                (.report (aggregate parseRFC3339 f.eventName items),
                 pre ++ [.newService, .loadLocation, .fetchEvents w.1 w.2])

/-! ### Definitions following the spec's words (for refinement claims) -/

/-- Spec: "first instant of that month at local midnight in the fixed
reference zone", as a day number. -/
def specFirstOfMonth (y m : Int) : Int := GoDate.toDays ⟨y, m, 1⟩

/-- Spec: "the following month" of a year/month pair. -/
def specNextMonth (y m : Int) : Int × Int :=
  if m = 12 then (y + 1, 1) else (y, m + 1)

/-- Spec: the month-derived window "[first instant of month, first instant
of next month)". -/
def specMonthWindow (y m : Int) : Int × Int :=
  (specFirstOfMonth y m,
   specFirstOfMonth (specNextMonth y m).1 (specNextMonth y m).2)

/-- Spec: case-insensitive exact comparison of names (equality of the
case-folded character sequences). -/
def specNamesMatch (s t : String) : Prop :=
  s.data.map charFold = t.data.map charFold

/-! ### Concrete environments used by the witnesses -/

/-- An environment whose stored token is expired but refreshable, and
whose refresh endpoint succeeds. -/
def c1Env : AuthEnv :=
  { load := .ok ⟨"tok", "refresh", 100⟩,
    refresh := fun _ => .ok ⟨"tok2", "refresh", 500⟩,
    web := ⟨"webtok", "", 0⟩,
    now := 200 }

/-- Like `c1Env`, but the refresh endpoint fails. -/
def c1EnvFail : AuthEnv :=
  { load := .ok ⟨"tok", "refresh", 100⟩,
    refresh := fun _ => .error "boom",
    web := ⟨"webtok", "", 0⟩,
    now := 200 }

/-- An environment whose token file fails to load (absent or corrupt). -/
def c9Env : AuthEnv :=
  { load := .error "corrupt token file",
    refresh := fun _ => .error "unused",
    web := ⟨"webtok", "", 0⟩,
    now := 0 }

/-- An auth environment holding a still-valid token. -/
def validAuthEnv : AuthEnv :=
  { load := .ok ⟨"tok", "refresh", 100⟩,
    refresh := fun _ => .error "unused",
    web := ⟨"webtok", "", 0⟩,
    now := 50 }

/-- A main environment in which every external collaborator succeeds. -/
def okMainEnv : MainEnv :=
  { readCreds := .ok (),
    configOfJSON := .ok (),
    auth := validAuthEnv,
    newService := .ok (),
    location := .ok (),
    listEvents := fun _ _ _ => .ok [] }

/-- Flags with no event name and no date range. -/
def c10Flags : Flags := ⟨"", "", "", "", "primary", false⟩

/-- Flags selecting March 2024 by month. -/
def c2Flags : Flags := ⟨"", "", "2024-03", "Standup", "primary", false⟩

/-- Flags selecting an explicit date range. -/
def c3Flags : Flags := ⟨"2024-03-04", "2024-03-05", "", "Standup", "primary", false⟩

/-! ### Supporting lemmas: calendar arithmetic -/

/-- Day offsets are linear in the denoted instant: this is why
`AddDate(0, 0, k)` on the stored components agrees with Go's
renormalizing `AddDate`. -/
theorem toDays_day_add (t : GoDate) (k : Int) :
    (t.addDate 0 0 k).toDays = t.toDays + k := by
  simp only [GoDate.addDate, GoDate.toDays, add_zero]
  ring

/-- Month offsets commute with the arithmetic month normalization: adding
`k` months to the month-normalized components of `(y, m)` denotes the
same instant as adding `k` to the raw month.  This is why `AddDate` on a
day-canonical stored triple agrees with Go's renormalizing `AddDate`. -/
theorem toDays_month_add (y m k d : Int) :
    GoDate.toDays ⟨y + (m - 1) / 12, (m - 1) % 12 + 1 + k, d⟩ =
      GoDate.toDays ⟨y, m + k, d⟩ := by
  have h1 : y + (m - 1) / 12 + ((m - 1) % 12 + 1 + k - 1) / 12 =
      y + (m + k - 1) / 12 := by omega
  have h2 : ((m - 1) % 12 + 1 + k - 1) % 12 + 1 = (m + k - 1) % 12 + 1 := by
    omega
  simp only [GoDate.toDays]
  rw [h1, h2]

/-- A successful `YYYY-MM` parse yields a month in `1..12`. -/
theorem parseMonthStr_month_range {s : String} {y m : Int}
    (h : parseMonthStr s = some (y, m)) : 1 ≤ m ∧ m ≤ 12 := by
  unfold parseMonthStr at h
  split at h
  · split at h
    · split at h
      · rename_i mn _ _ hrange
        injection h with h
        injection h with hy hm
        subst hm
        exact ⟨by exact_mod_cast hrange.1, by exact_mod_cast hrange.2⟩
      · exact absurd h (by simp)
    · exact absurd h (by simp)
  · exact absurd h (by simp)

/-- The empty string is not a valid `YYYY-MM` specifier. -/
theorem parseMonthStr_empty : parseMonthStr "" = none := rfl

/-- The empty string is not a valid `YYYY-MM-DD` date. -/
theorem parseDateStr_empty : parseDateStr "" = none := rfl

/-- The first of the month following `(y, m)` (for `m` in `1..12`),
written with a raw month `m + 1`, denotes the spec's "first instant of
the following month". -/
theorem toDays_next_month {y m : Int} (h1 : 1 ≤ m) (h2 : m ≤ 12) :
    GoDate.toDays ⟨y, m + 1, 1⟩ =
      specFirstOfMonth (specNextMonth y m).1 (specNextMonth y m).2 := by
  unfold specNextMonth specFirstOfMonth
  by_cases h : m = 12
  · subst h
    norm_num [GoDate.toDays, monthDaysAcc]
  · rw [if_neg h]

/-! ### Supporting lemmas: the aggregation loop -/

/-- One loop iteration, written as additive contributions governed by
`keepEvent` and `warnEvent`. -/
theorem aggStep_eq (p : String → Option Int) (n : String) (st : AggState)
    (e : CalEvent) :
    aggStep p n st e =
      ⟨st.totalDuration + (if keepEvent p n e then evDuration p e else 0),
       st.matched ++ (if keepEvent p n e then [e] else []),
       st.warnings + (if warnEvent p n e then 1 else 0)⟩ := by
  unfold aggStep keepEvent warnEvent evDuration
  by_cases h1 : e.startDT = ""
  · simp [h1]
  · by_cases h2 : equalFold e.summary n
    · rcases hs : p e.startDT with _ | s
      · simp [h1, h2, hs]
      · rcases he : p e.endDT with _ | t
        · simp [h1, h2, hs, he]
        · simp [h1, h2, hs, he]
    · simp [h1, h2]

/-- The loop from an arbitrary starting state. -/
theorem foldl_aggStep (p : String → Option Int) (n : String)
    (items : List CalEvent) :
    ∀ st : AggState, items.foldl (aggStep p n) st =
      ⟨st.totalDuration + ((items.filter (keepEvent p n)).map (evDuration p)).sum,
       st.matched ++ items.filter (keepEvent p n),
       st.warnings + items.countP (warnEvent p n)⟩ := by
  induction items with
  | nil => intro st; simp
  | cons e rest ih =>
    intro st
    rw [List.foldl_cons, ih, aggStep_eq]
    by_cases hk : keepEvent p n e <;> by_cases hw : warnEvent p n e <;>
      simp [List.filter_cons, List.countP_cons, hk, hw, add_assoc,
        List.append_assoc, Nat.add_comm]

/-- The aggregation result, in closed form: the total is the sum of the
signed durations of the kept events, the matched list is the kept
sublist in input order, and the warning count is the number of
warning-provoking events. -/
theorem aggregate_eq (p : String → Option Int) (n : String)
    (items : List CalEvent) :
    aggregate p n items =
      ⟨((items.filter (keepEvent p n)).map (evDuration p)).sum,
       items.filter (keepEvent p n),
       items.countP (warnEvent p n)⟩ := by
  unfold aggregate
  rw [foldl_aggStep]
  simp

/-! ### Supporting lemmas: truncating division (Go `int(float64)` and `%`) -/

/-- Truncating division nests: first by `60·10⁹` then by `60` is the same
as by `3600·10⁹` (so `int(d.Hours())` is the whole-hours part of
`int(d.Minutes())`). -/
theorem tdiv_nest (a : Int) :
    Int.tdiv (Int.tdiv a 60000000000) 60 = Int.tdiv a 3600000000000 := by
  have hmul : (60000000000 : Nat) * 60 = 3600000000000 := by norm_num
  cases a with
  | ofNat np =>
    show Int.tdiv (Int.ofNat (np / 60000000000)) 60 = Int.ofNat (np / 3600000000000)
    show Int.ofNat (np / 60000000000 / 60) = Int.ofNat (np / 3600000000000)
    rw [Nat.div_div_eq_div_mul, hmul]
  | negSucc np =>
    show Int.tdiv (-Int.ofNat ((np + 1) / 60000000000)) 60 =
      -Int.ofNat ((np + 1) / 3600000000000)
    rw [Int.neg_tdiv]
    show -Int.ofNat ((np + 1) / 60000000000 / 60) =
      -Int.ofNat ((np + 1) / 3600000000000)
    rw [Nat.div_div_eq_div_mul, hmul]

/-- The truncated remainder by 60 has magnitude below 60 and carries the
sign of the dividend. -/
theorem tmod_sixty_abs (a : Int) : (Int.tmod a 60).natAbs < 60 := by
  cases a with
  | ofNat np =>
    show (Int.ofNat (np % 60)).natAbs < 60
    simpa using Nat.mod_lt np (by norm_num)
  | negSucc np =>
    show (-Int.ofNat ((np + 1) % 60)).natAbs < 60
    simpa using Nat.mod_lt (np + 1) (by norm_num)

/-! ### Claims -/

/-- C4: every redirect request is answered with a (non-empty) response
body — the completion message when a `code` query parameter is present,
the no-code message otherwise — and the one-shot synchronization channel
receives a value exactly when the code is non-empty, so a no-code
redirect never unblocks the consumer waiting on the channel. -/
theorem c4_redirect_handler (code : String) :
    (redirectHandler code).body ≠ "" ∧
    ((redirectHandler code).body =
      if code ≠ "" then "認証が完了しました。このページを閉じて構いません。"
      else "認証コードが取得できませんでした。") ∧
    ((redirectHandler code).channelSends = if code ≠ "" then [code] else []) := by
  unfold redirectHandler
  by_cases h : code = "" <;> simp [h]

/-- C5: an event is kept by the name filter exactly when its display name
equals the target under case-insensitive exact comparison: the matched
list is the `keepEvent` filter (whose name test is `equalFold`),
`equalFold` holds exactly on case-fold-equal names (so names differing
only in case match), and a name of which the target is merely a proper
substring never matches. -/
theorem c5_name_filter (p : String → Option Int) (n : String)
    (items : List CalEvent) (s t : String) (pre suf : List Char) :
    ((aggregate p n items).matched = items.filter (keepEvent p n)) ∧
    (equalFold s t = true ↔ specNamesMatch s t) ∧
    (t.data = pre ++ s.data ++ suf → pre ≠ [] ∨ suf ≠ [] →
      equalFold t s = false) := by
  refine ⟨?_, ?_, ?_⟩
  · rw [aggregate_eq]
  · simp [equalFold, specNamesMatch]
  · intro htd hps
    rw [equalFold, beq_eq_false_iff_ne]
    intro heq
    have hlen := congrArg List.length heq
    simp only [List.length_map, htd, List.length_append] at hlen
    rcases hps with h | h
    · have := List.length_pos.mpr h
      omega
    · have := List.length_pos.mpr h
      omega

/-- Witness for C5: "meeting" matches "Meeting" (case difference only);
"Meeting" does not match "Meeting Prep" (mere substring). -/
theorem c5_witness :
    equalFold "Meeting" "meeting" = true ∧
    equalFold "Meeting Prep" "Meeting" = false := by
  constructor
  · exact (c5_name_filter parseRFC3339 "" [] "Meeting" "meeting" [] []).2.1.mpr
      (by unfold specNamesMatch; decide)
  · exact (c5_name_filter parseRFC3339 "" [] "Meeting" "Meeting Prep" []
      (" Prep".data)).2.2 (by decide) (Or.inr (by decide))

/-- C6: an all-day event (empty `Start.DateTime`) never appears in the
matched output and never contributes to the total — deleting it from the
input leaves the whole aggregation result unchanged, whatever its name. -/
theorem c6_allday_excluded (p : String → Option Int) (n : String)
    (pre suf : List CalEvent) (e : CalEvent) (h : e.startDT = "") :
    aggregate p n (pre ++ e :: suf) = aggregate p n (pre ++ suf) := by
  have hk : keepEvent p n e = false := by simp [keepEvent, h]
  have hw : warnEvent p n e = false := by simp [warnEvent, h]
  rw [aggregate_eq, aggregate_eq]
  simp [List.filter_append, List.countP_append, List.filter_cons,
    List.countP_cons, hk, hw]

/-- Witness for C6: an all-day event whose name matches the target is
still excluded. -/
theorem c6_witness :
    aggregate parseRFC3339 "Standup" [⟨"Standup", "", ""⟩] =
      aggregate parseRFC3339 "Standup" [] :=
  c6_allday_excluded parseRFC3339 "Standup" [] [] ⟨"Standup", "", ""⟩ rfl

/-- C7 counterexample: a malformed event whose name does not match the
target is skipped silently — no warning is logged — contradicting the
claim that every malformed event in the input is skipped "with a logged
warning". -/
theorem c7_counterexample :
    parseRFC3339 "bad" = none ∧
    (aggregate parseRFC3339 "Meeting" [⟨"Other", "bad", "bad"⟩]).warnings = 0 :=
  ⟨rfl, rfl⟩

/-- C7 (amended): an event that passes the all-day filter and the name
match but whose start or end instant is malformed is skipped with exactly
one logged warning and contributes nothing to the total or the matched
list, while aggregation of every other event proceeds unchanged (events
rejected by the all-day filter or the name match are skipped without a
warning). -/
theorem c7_malformed_event_skipped (p : String → Option Int) (n : String)
    (pre suf : List CalEvent) (e : CalEvent)
    (hne : e.startDT ≠ "") (hmatch : equalFold e.summary n = true)
    (hbad : p e.startDT = none ∨ p e.endDT = none) :
    (aggregate p n (pre ++ e :: suf)).totalDuration =
        (aggregate p n (pre ++ suf)).totalDuration ∧
    (aggregate p n (pre ++ e :: suf)).matched =
        (aggregate p n (pre ++ suf)).matched ∧
    (aggregate p n (pre ++ e :: suf)).warnings =
        (aggregate p n (pre ++ suf)).warnings + 1 := by
  have hk : keepEvent p n e = false := by
    rcases hbad with h | h <;> simp [keepEvent, h, hne, hmatch]
  have hw : warnEvent p n e = true := by
    rcases hbad with h | h <;> simp [warnEvent, h, hne, hmatch]
  rw [aggregate_eq, aggregate_eq]
  refine ⟨?_, ?_, ?_⟩ <;>
    simp [List.filter_append, List.countP_append, List.filter_cons,
      List.countP_cons, hk, hw] <;> omega

/-- Witness for C7 (amended): one malformed matching event among two
valid ones is dropped with one warning, and the valid events aggregate as
if it were absent. -/
theorem c7_witness :
    (aggregate parseRFC3339 "Standup"
      [⟨"Standup", "2024-03-04T09:00:00+09:00", "2024-03-04T09:15:00+09:00"⟩,
       ⟨"Standup", "oops", "oops"⟩,
       ⟨"Standup", "2024-03-05T09:00:00+09:00", "2024-03-05T09:30:00+09:00"⟩]).totalDuration =
      (aggregate parseRFC3339 "Standup"
        [⟨"Standup", "2024-03-04T09:00:00+09:00", "2024-03-04T09:15:00+09:00"⟩,
         ⟨"Standup", "2024-03-05T09:00:00+09:00", "2024-03-05T09:30:00+09:00"⟩]).totalDuration ∧
    (aggregate parseRFC3339 "Standup"
      [⟨"Standup", "2024-03-04T09:00:00+09:00", "2024-03-04T09:15:00+09:00"⟩,
       ⟨"Standup", "oops", "oops"⟩,
       ⟨"Standup", "2024-03-05T09:00:00+09:00", "2024-03-05T09:30:00+09:00"⟩]).warnings =
      (aggregate parseRFC3339 "Standup"
        [⟨"Standup", "2024-03-04T09:00:00+09:00", "2024-03-04T09:15:00+09:00"⟩,
         ⟨"Standup", "2024-03-05T09:00:00+09:00", "2024-03-05T09:30:00+09:00"⟩]).warnings + 1 := by
  have h := c7_malformed_event_skipped parseRFC3339 "Standup"
    [⟨"Standup", "2024-03-04T09:00:00+09:00", "2024-03-04T09:15:00+09:00"⟩]
    [⟨"Standup", "2024-03-05T09:00:00+09:00", "2024-03-05T09:30:00+09:00"⟩]
    ⟨"Standup", "oops", "oops"⟩ (by decide) (by decide) (Or.inl (by decide))
  exact ⟨h.1, h.2.2⟩

/-- C8: the displayed figures decompose the total into whole hours and a
remainder below sixty minutes with no rounding — the hours figure is the
truncated quotient of the minutes figure by 60, hours·60 plus the
displayed remainder recovers the truncated total minutes — and each
per-event duration enters the total as the signed difference
`end − start`, negative values included, with no special handling. -/
theorem c8_display_decomposition (total : Int)
    (p : String → Option Int) (n : String) (items : List CalEvent) :
    (displayHM total).1 = Int.tdiv (Int.tdiv total 60000000000) 60 ∧
    (displayHM total).1 * 60 + (displayHM total).2 =
      Int.tdiv total 60000000000 ∧
    ((displayHM total).2).natAbs < 60 ∧
    (aggregate p n items).totalDuration =
      ((items.filter (keepEvent p n)).map (evDuration p)).sum := by
  refine ⟨?_, ?_, ?_, ?_⟩
  · exact (tdiv_nest total).symm
  · show Int.tdiv total 3600000000000 * 60 +
      Int.tmod (Int.tdiv total 60000000000) 60 = Int.tdiv total 60000000000
    rw [← tdiv_nest total]
    have h := Int.tdiv_add_tmod (Int.tdiv total 60000000000) 60
    linarith
  · exact tmod_sixty_abs _
  · rw [aggregate_eq]

/-- C2: for every valid `YYYY-MM` specifier the selected dates are the
first and last day of that month, the query window handed to
`Events.List` (start date, end date advanced by one day) is exactly
[first instant of the month at local midnight, first instant of the
following month at local midnight) in the reference zone, and a run of
`main` that reaches the fetch queries precisely that window. -/
theorem c2_month_window (f : Flags) (y m : Int) (env : MainEnv)
    (h : parseMonthStr f.monthStr = some (y, m))
    (hc : env.readCreds = .ok ()) (hj : env.configOfJSON = .ok ())
    (hs : env.newService = .ok ()) (hloc : env.location = .ok ())
    (hlist : f.isList = false) (hname : f.eventName ≠ "") :
    selectDates f = .window ⟨y, m, 1⟩ ⟨y, m + 1, 0⟩ ∧
    searchWindow ⟨y, m, 1⟩ ⟨y, m + 1, 0⟩ = specMonthWindow y m ∧
    Act.fetchEvents (specMonthWindow y m).1 (specMonthWindow y m).2 ∈
      (runMain env f).2 := by
  obtain ⟨hm1, hm2⟩ := parseMonthStr_month_range h
  have hne : f.monthStr ≠ "" := by
    intro he
    rw [he, parseMonthStr_empty] at h
    exact Option.noConfusion h
  have hgm : getMonthDates f.monthStr = some (⟨y, m, 1⟩, ⟨y, m + 1, 0⟩) := by
    unfold getMonthDates
    rw [h]
    simp [GoDate.addDate]
  have hsel : selectDates f = .window ⟨y, m, 1⟩ ⟨y, m + 1, 0⟩ := by
    unfold selectDates
    rw [if_pos hne, hgm]
  have hone : GoDate.addDate ⟨y, m + 1, 0⟩ 0 0 1 = (⟨y, m + 1, 1⟩ : GoDate) := by
    simp [GoDate.addDate]
  have hwin : searchWindow ⟨y, m, 1⟩ ⟨y, m + 1, 0⟩ = specMonthWindow y m := by
    unfold searchWindow specMonthWindow
    rw [hone, toDays_next_month hm1 hm2]
    rfl
  refine ⟨hsel, hwin, ?_⟩
  unfold runMain
  rw [hc, hj, hs, hloc, hlist, hsel]
  simp only [Bool.false_eq_true, if_false, if_neg hname, hwin]
  rcases env.listEvents f.calendarID (specMonthWindow y m).1 (specMonthWindow y m).2 with
    _ | items <;> simp

/-- Witness for C2: the March 2024 flags produce the window
[2024-03-01, 2024-04-01). -/
theorem c2_witness :
    selectDates c2Flags = .window ⟨2024, 3, 1⟩ ⟨2024, 4, 0⟩ ∧
    searchWindow ⟨2024, 3, 1⟩ ⟨2024, 4, 0⟩ = specMonthWindow 2024 3 := by
  have h := c2_month_window c2Flags 2024 3 okMainEnv (by decide) rfl rfl rfl rfl
    rfl (by decide)
  exact ⟨h.1, h.2.1⟩

/-- C3: for explicit start/end dates D1 ≤ D2 the selected window is the
parsed pair, and the constructed query window is
[D1 at local midnight, D2 plus one day at local midnight) — the end date
is advanced by one day, making D2 inclusive. -/
theorem c3_explicit_window (f : Flags) (g1 g2 : GoDate)
    (hm : f.monthStr = "")
    (h1 : parseDateStr f.startStr = some g1)
    (h2 : parseDateStr f.endStr = some g2)
    (hle : g1.toDays ≤ g2.toDays) :
    selectDates f = .window g1 g2 ∧
    searchWindow g1 g2 = (g1.toDays, g2.toDays + 1) := by
  have hs : f.startStr ≠ "" := by
    intro he
    rw [he, parseDateStr_empty] at h1
    exact Option.noConfusion h1
  have he : f.endStr ≠ "" := by
    intro hx
    rw [hx, parseDateStr_empty] at h2
    exact Option.noConfusion h2
  constructor
  · unfold selectDates
    rw [if_neg (by simp [hm]), if_pos ⟨hs, he⟩, h1, h2]
  · unfold searchWindow
    rw [toDays_day_add]

/-- Witness for C3: the range 2024-03-04 .. 2024-03-05 yields the window
[2024-03-04, 2024-03-06). -/
theorem c3_witness :
    selectDates c3Flags = .window ⟨2024, 3, 4⟩ ⟨2024, 3, 5⟩ ∧
    searchWindow ⟨2024, 3, 4⟩ ⟨2024, 3, 5⟩ =
      ((⟨2024, 3, 4⟩ : GoDate).toDays, (⟨2024, 3, 5⟩ : GoDate).toDays + 1) :=
  c3_explicit_window c3Flags ⟨2024, 3, 4⟩ ⟨2024, 3, 5⟩ rfl (by decide) (by decide)
    (by decide)

/-- C1: when the stored token loads, is expired, and carries a refresh
credential, `getClient` attempts the silent refresh before any
interactive authorization: on success the refreshed token is saved and
used (no `authFlow` in the trace); on failure the failure is logged (not
fatal), the interactive flow runs after the refresh attempt, and its
token is saved and used. -/
theorem c1_expired_token_silent_refresh (env : AuthEnv) (tok : Token)
    (hload : env.load = .ok tok) (hexp : tok.expiry < env.now)
    (href : tok.refreshToken ≠ "") :
    (∀ newToken, env.refresh tok = .ok newToken →
      getClient env =
        (newToken, [.loadTokenFile, .logExpired, .refreshAttempt,
          .logRefreshOk, .saveToken newToken])) ∧
    (∀ e, env.refresh tok = .error e →
      getClient env =
        (env.web, [.loadTokenFile, .logExpired, .refreshAttempt,
          .logRefreshFail, .authFlow, .saveToken env.web])) := by
  constructor
  · intro newToken hr
    simp [getClient, hload, hexp, href, hr]
  · intro e hr
    simp [getClient, hload, hexp, href, hr]

/-- Witness for C1: both refresh outcomes on concrete environments. -/
theorem c1_witness :
    getClient c1Env =
      (⟨"tok2", "refresh", 500⟩,
       [.loadTokenFile, .logExpired, .refreshAttempt, .logRefreshOk,
        .saveToken ⟨"tok2", "refresh", 500⟩]) ∧
    getClient c1EnvFail =
      (⟨"webtok", "", 0⟩,
       [.loadTokenFile, .logExpired, .refreshAttempt, .logRefreshFail,
        .authFlow, .saveToken ⟨"webtok", "", 0⟩]) := by
  constructor
  · exact (c1_expired_token_silent_refresh c1Env ⟨"tok", "refresh", 100⟩ rfl
      (by decide) (by decide)).1 _ rfl
  · exact (c1_expired_token_silent_refresh c1EnvFail ⟨"tok", "refresh", 100⟩ rfl
      (by decide) (by decide)).2 "boom" rfl

/-- C9: whenever loading the persisted token fails — for any error, so a
corrupt file behaves exactly like a missing one — `getClient` goes
straight to the interactive flow and saves its token; no expiry check and
no refresh attempt appear in the trace. -/
theorem c9_load_failure_interactive (env : AuthEnv) (e : String)
    (h : env.load = .error e) :
    getClient env = (env.web, [.loadTokenFile, .authFlow, .saveToken env.web]) ∧
    Act.refreshAttempt ∉ (getClient env).2 ∧
    Act.logExpired ∉ (getClient env).2 := by
  have hg : getClient env =
      (env.web, [.loadTokenFile, .authFlow, .saveToken env.web]) := by
    simp [getClient, h]
  refine ⟨hg, ?_, ?_⟩ <;> rw [hg] <;> simp

/-- Witness for C9: a concrete corrupt token file. -/
theorem c9_witness :
    getClient c9Env =
      (⟨"webtok", "", 0⟩, [.loadTokenFile, .authFlow,
        .saveToken ⟨"webtok", "", 0⟩]) :=
  (c9_load_failure_interactive c9Env "corrupt token file" rfl).1

/-- C10: with credentials, config and service construction succeeding,
a run with no `-list` flag whose event name is missing — or whose date
flags are missing (timezone loading succeeding) — still performs the
whole token lifecycle: the run exits via the usage path (status 1) with
the full `getClient` action trace, interactive flow included when the
environment demands it, before the argument validation. -/
theorem c10_lifecycle_before_validation (env : MainEnv) (f : Flags)
    (hc : env.readCreds = .ok ()) (hj : env.configOfJSON = .ok ())
    (hs : env.newService = .ok ()) (hlist : f.isList = false)
    (hmiss : f.eventName = "" ∨
      (env.location = .ok () ∧ selectDates f = .usage)) :
    runMain env f =
      (.usageExit,
        [Act.readCredentials, Act.parseConfig] ++ (getClient env.auth).2 ++
          (if f.eventName = "" then [Act.newService, Act.usageMessage]
           else [Act.newService, Act.loadLocation, Act.usageMessage])) := by
  rcases hmiss with hname | ⟨hloc, hsel⟩
  · simp [runMain, hc, hj, hs, hlist, hname, List.append_assoc]
  · by_cases hname : f.eventName = ""
    · simp [runMain, hc, hj, hs, hlist, hname, List.append_assoc]
    · simp [runMain, hc, hj, hs, hlist, hname, hloc, hsel, List.append_assoc]

/-- Witness for C10: a run with every flag empty still runs the token
lifecycle (here: a successful load of a valid token) and only then exits
through the usage path. -/
theorem c10_witness :
    runMain okMainEnv c10Flags =
      (.usageExit,
        [Act.readCredentials, Act.parseConfig] ++
          (getClient okMainEnv.auth).2 ++
          (if c10Flags.eventName = "" then [Act.newService, Act.usageMessage]
           else [Act.newService, Act.loadLocation, Act.usageMessage])) :=
  c10_lifecycle_before_validation okMainEnv c10Flags rfl rfl rfl rfl
    (Or.inl rfl)
